import Mathlib

/-!
Verification of the PubMed pharma-affiliation fetcher.

A shallow embedding of the core logic of `pubmed_fetcher.py`,
`batch_processor.py` and `config.py`: the affiliation classifier, the
fetch/filter pipeline, the batch orchestrator, query-file parsing,
field truncation and the CSV exporter.  Python strings are embedded as
Lean `String`; Python string operations (`lower`, `strip`, `in`,
`startswith`, slicing) are defined below on the underlying character
list.  External network calls (Entrez search / fetch) are modelled as
oracles passed in as parameters: a search outcome is an
`Except String (List String)` (exception vs. identifier list) and a
per-identifier detail outcome is an `Option` (exception / missing
record collapse to `none`, exactly as the Python code collapses them).
-/

namespace PubMed

/-- Python `str.lower()` restricted to ASCII case mapping (the keyword
lexicon and all inputs of interest are ASCII). -/
def pyLower (s : String) : String := ⟨s.data.map Char.toLower⟩

/-- Characters stripped by Python `str.strip()` (ASCII whitespace). -/
def pyIsSpace (c : Char) : Bool :=
  c == ' ' || c == '\t' || c == '\n' || c == '\r' || c == '\x0b' || c == '\x0c'

/-- Python `str.strip()`. -/
def pyStrip (s : String) : String :=
  ⟨((s.data.dropWhile pyIsSpace).reverse.dropWhile pyIsSpace).reverse⟩

/-- Python substring test `needle in hay`. -/
def pyContains (hay needle : String) : Bool :=
  (List.range (hay.data.length + 1)).any fun i =>
    needle.data.isPrefixOf (hay.data.drop i)

/-- Python `s.startswith(p)`. -/
def pyStartsWith (s p : String) : Bool := p.data.isPrefixOf s.data

/-- Python slice `s[:n]`. -/
def pySlice (s : String) (n : Nat) : String := ⟨s.data.take n⟩

/-- Python `len(s)` (code points). -/
def pyLen (s : String) : Nat := s.data.length

/-- Python string join with a separator. -/
def pyJoin (sep : String) (l : List String) : String := String.intercalate sep l

/-- The four keyword categories of `config.py`, plus their union
(`PubMedFetcher.all_keywords`). -/
structure Lexicon where
  pharma_keywords : List String
  company_keywords : List String
  collaboration_keywords : List String
  academic_industry_keywords : List String

def Lexicon.all_keywords (lex : Lexicon) : List String :=
  lex.pharma_keywords ++ lex.company_keywords ++
    lex.collaboration_keywords ++ lex.academic_industry_keywords

/-- The classifier `PubMedFetcher.has_pharma_affiliation` (pubmed_fetcher.py lines
103-138).  `none` models a Python `None` argument; `if not affiliation`
is false for both `None` and the empty string. -/
def has_pharma_affiliation (lex : Lexicon) (affiliation : Option String) : Bool :=
  match affiliation with
  | none => false
  | some a =>
    if a = "" then false
    else
      let al := pyLower a
      lex.company_keywords.any (fun company => pyContains al company) ||
      lex.pharma_keywords.any (fun keyword => pyContains al keyword) ||
      lex.collaboration_keywords.any (fun keyword => pyContains al keyword) ||
      lex.academic_industry_keywords.any (fun keyword => pyContains al keyword)

def PHARMA_KEYWORDS : List String := [
  "pharmaceutical",
  "pharma",
  "biotech",
  "biotechnology",
  "drug",
  "medication",
  "therapeutics",
  "pharmacology",
  "clinical",
  "trial",
  "medicine",
  "healthcare",
  "biopharmaceutical",
  "biopharma",
  "genetic",
  "genomics",
  "proteomics",
  "molecular",
  "cell",
  "therapy",
  "vaccine",
  "antibody",
  "protein",
  "enzyme",
  "drug discovery",
  "drug development",
  "clinical research",
  "clinical development",
  "regulatory affairs",
  "medical affairs",
  "research and development",
  "r&d",
  "drug safety",
  "pharmacovigilance",
  "medical device",
  "diagnostic",
  "precision medicine",
  "personalized medicine",
  "targeted therapy",
  "immunotherapy",
  "gene therapy",
  "cell therapy",
  "stem cell",
  "biomarker",
  "companion diagnostic",
  "orphan drug",
  "rare disease"
]

def COMPANY_KEYWORDS : List String := [
  "pfizer",
  "novartis",
  "roche",
  "johnson & johnson",
  "merck",
  "gsk",
  "glaxosmithkline",
  "astrazeneca",
  "sanofi",
  "bayer",
  "abbvie",
  "amgen",
  "biogen",
  "gilead",
  "moderna",
  "biontech",
  "regeneron",
  "eli lilly",
  "bristol-myers squibb",
  "takeda",
  "daiichi sankyo",
  "astellas",
  "boehringer ingelheim",
  "novo nordisk",
  "genentech",
  "celgene",
  "incyte",
  "vertex",
  "alexion",
  "biomarin",
  "seattle genetics",
  "exelixis",
  "clovis oncology",
  "bluebird bio",
  "crispr therapeutics",
  "editas medicine",
  "intellia therapeutics",
  "beam therapeutics",
  "precision biosciences",
  "janssen",
  "bristol myers",
  "bristol-myers",
  "merck sharp & dohme",
  "msd",
  "roche pharmaceuticals",
  "genentech inc",
  "genentech, inc",
  "roche diagnostics",
  "novartis pharmaceuticals",
  "novartis institutes",
  "pfizer inc",
  "pfizer, inc",
  "astrazeneca plc",
  "astrazeneca pharmaceuticals",
  "sanofi aventis",
  "sanofi-aventis",
  "bayer healthcare",
  "bayer pharmaceuticals",
  "abbvie inc",
  "abbvie, inc",
  "amgen inc",
  "amgen, inc",
  "biogen idec",
  "biogen-idec",
  "gilead sciences",
  "gilead sciences inc",
  "gilead sciences, inc",
  "moderna therapeutics",
  "moderna inc",
  "moderna, inc",
  "biontech se",
  "biontech ag",
  "regeneron pharmaceuticals",
  "regeneron inc",
  "regeneron, inc",
  "eli lilly and company",
  "lilly",
  "eli lilly",
  "bristol-myers squibb company",
  "bristol-myers squibb co",
  "takeda pharmaceutical",
  "takeda pharmaceuticals",
  "daiichi sankyo co",
  "daiichi sankyo company",
  "astellas pharma",
  "astellas pharmaceutical",
  "boehringer ingelheim pharmaceuticals",
  "boehringer ingelheim pharma",
  "novo nordisk a/s",
  "novo nordisk as",
  "iqvia",
  "covance",
  "labcorp",
  "parexel",
  "icon plc",
  "icon plc",
  "ppd",
  "syneos health",
  "medpace",
  "pacific biosciences",
  "illumina",
  "thermo fisher scientific",
  "agilent technologies",
  "waters corporation",
  "perkinelmer",
  "bio-rad laboratories",
  "qiagen",
  "roche molecular systems",
  "abbott laboratories",
  "abbott",
  "beckman coulter",
  "beckman coulter inc",
  "beckman coulter, inc",
  "harvard medical school",
  "stanford medicine",
  "ucsf",
  "university of california san francisco",
  "johns hopkins medicine",
  "mayo clinic",
  "cleveland clinic",
  "md anderson cancer center",
  "memorial sloan kettering",
  "dana-farber cancer institute",
  "fred hutchinson cancer center",
  "sloan kettering",
  "memorial sloan-kettering",
  "fred hutch",
  "fred hutchinson",
  "nih",
  "national institutes of health",
  "nci",
  "national cancer institute",
  "fda",
  "food and drug administration",
  "cdc",
  "centers for disease control",
  "nhlbi",
  "national heart lung and blood institute",
  "nimh",
  "national institute of mental health",
  "who",
  "world health organization",
  "ema",
  "european medicines agency",
  "health canada",
  "pmda",
  "pharmaceuticals and medical devices agency",
  "tga",
  "therapeutic goods administration"
]

def COLLABORATION_KEYWORDS : List String := [
  "sponsored by",
  "funded by",
  "supported by",
  "in collaboration with",
  "partnership with",
  "joint research",
  "industry collaboration",
  "pharmaceutical industry",
  "biotechnology industry",
  "drug industry",
  "clinical trial sponsor",
  "study sponsor",
  "research sponsor",
  "commercial support",
  "industry support",
  "corporate funding",
  "pharmaceutical company",
  "biotech company",
  "drug company",
  "industry partner",
  "commercial partner",
  "corporate partner"
]

def ACADEMIC_INDUSTRY_KEYWORDS : List String := [
  "university-industry",
  "academic-industry",
  "academia-industry",
  "university corporate",
  "academic corporate",
  "academia corporate",
  "university pharmaceutical",
  "academic pharmaceutical",
  "academia pharmaceutical",
  "university biotech",
  "academic biotech",
  "academia biotech",
  "university drug",
  "academic drug",
  "academia drug",
  "university medicine",
  "academic medicine",
  "academia medicine",
  "university healthcare",
  "academic healthcare",
  "academia healthcare"
]

/-- The lexicon as loaded from `config.py` (the `try` branch at the
top of `pubmed_fetcher.py`). -/
def defaultLexicon : Lexicon :=
  { pharma_keywords := PHARMA_KEYWORDS
    company_keywords := COMPANY_KEYWORDS
    collaboration_keywords := COLLABORATION_KEYWORDS
    academic_industry_keywords := ACADEMIC_INDUSTRY_KEYWORDS }

/-- Output configuration (`OUTPUT_CONFIG` in config.py). -/
structure OutputConfig where
  include_abstract : Bool := true
  include_affiliations : Bool := true
  truncate_long_fields : Bool := true
  max_field_length : Nat := 1000

def OUTPUT_CONFIG : OutputConfig := {}

/-- Field truncation in `get_paper_details` (pubmed_fetcher.py lines
207-213): `field[:max_length] + "..."` when `len(field) > max_length`,
otherwise unchanged. -/
def truncateField (max_length : Nat) (s : String) : String :=
  if pyLen s > max_length then pySlice s max_length ++ "..." else s

/-- The record dictionary built by `get_paper_details` (pubmed_fetcher.py
lines 215-224).  `search_query` and `query_name` are the two keys added
only by `BatchProcessor.process_query`, so they are `Option`s that are
`none` for a freshly built record. -/
structure Paper where
  pmid : String
  title : String
  abstract : String
  journal : String
  publication_date : String
  authors : String
  affiliations : String
  has_pharma_affiliation : Bool
  search_query : Option String := none
  query_name : Option String := none
deriving DecidableEq, Repr

/-- The search wrapper `PubMedFetcher.search_pubmed` (lines 73-101).  The outcome of the
Entrez search call is the argument: an exception is caught and an empty
identifier list is returned instead. -/
def search_pubmed (raw : Except String (List String)) : List String :=
  match raw with
  | .ok pmids => pmids
  | .error _ => []

/-- The per-identifier loop of `fetch_and_filter_papers` (lines
249-261): a detail retrieval that fails (exception or empty parse,
both returned as `none` by `get_paper_details`) is skipped, a record
whose flag is false is skipped, and matching records are appended in
processing order. -/
def filterLoop (details : String → Option Paper) : List String → List Paper
  | [] => []
  | pmid :: rest =>
    match details pmid with
    | some paper =>
      if paper.has_pharma_affiliation then paper :: filterLoop details rest
      else filterLoop details rest
    | none => filterLoop details rest

/-- The pipeline `PubMedFetcher.fetch_and_filter_papers` (lines 230-264). -/
def fetch_and_filter_papers (raw : Except String (List String))
    (details : String → Option Paper) : List Paper :=
  let pmids := search_pubmed raw
  if pmids.isEmpty then [] else filterLoop details pmids

/-- The per-query step `BatchProcessor.process_query` (batch_processor.py lines 32-58);
`query_name or query` is Python truthiness: an absent or empty name
falls back to the query string. -/
def process_query (pipeline : String → List Paper) (query : String)
    (query_name : Option String) : List Paper :=
  (pipeline query).map fun paper =>
    { paper with
        search_query := some query
        query_name := some (match query_name with
          | some n => if n = "" then query else n
          | none => query) }

/-- The `enumerate(queries, 1)` loop of
`BatchProcessor.process_queries_from_list` (lines 107-110). -/
def batchLoop (pipeline : String → List Paper) : Nat → List String → List Paper
  | _, [] => []
  | i, query :: rest =>
    process_query pipeline query (some ("Query_" ++ toString i)) ++
      batchLoop pipeline (i + 1) rest

/-- The orchestrator `BatchProcessor.process_queries_from_list` (lines 94-112). -/
def process_queries_from_list (pipeline : String → List Paper)
    (queries : List String) : List Paper :=
  batchLoop pipeline 1 queries

/-- A concrete record used to instantiate hypotheses of the theorems
below on closed inputs. -/
def demoPaper : Paper :=
  { pmid := "100"
    title := "A trial"
    abstract := "An abstract"
    journal := "J"
    publication_date := "2020 Jan 1"
    authors := "Ann Smith"
    affiliations := "Pfizer Inc, Groton CT"
    has_pharma_affiliation := true }

/-- A concrete detail oracle: identifier "100" resolves to `demoPaper`,
every other identifier fails. -/
def demoDetails : String → Option Paper :=
  fun pmid => if pmid = "100" then some demoPaper else none

/-- The list comprehension of `BatchProcessor.process_queries_from_file`
(batch_processor.py line 79): `[line.strip() for line in f if
line.strip() and not line.startswith('#')]`, applied to the lines of the
query file. -/
def process_queries_file_lines (lines : List String) : List String :=
  (lines.filter fun line =>
    pyStrip line != "" && !(pyStartsWith line "#")).map pyStrip

/-- The loading rule exactly as claimed: keep the non-blank lines whose
first non-whitespace character is not '#' (i.e. whose stripped form
does not start with '#'), stripped, in order. -/
def load_queries_spec (lines : List String) : List String :=
  (lines.filter fun line =>
    pyStrip line != "" && !(pyStartsWith (pyStrip line) "#")).map pyStrip

/-- The amended loading rule, written as a recursive specification:
keep, stripped and in order, exactly the lines that are non-blank after
stripping and whose very first (raw) character is not '#'. -/
def load_queries_amended : List String → List String
  | [] => []
  | line :: rest =>
    if pyStrip line = "" then load_queries_amended rest
    else if pyStartsWith line "#" then load_queries_amended rest
    else pyStrip line :: load_queries_amended rest

/-- One entry of the `AffiliationInfo` list of an author; the `Affiliation`
key may be missing. -/
structure AffiliationInfo where
  affiliation : Option String
deriving DecidableEq, Repr

/-- One entry of the article's `AuthorList`; every key may be missing. -/
structure AuthorXml where
  lastName : Option String
  foreName : Option String
  affiliationInfo : Option (List AffiliationInfo)
deriving DecidableEq, Repr

/-- The `PubDate` sub-structure (year, month, day, each possibly
absent; an absent `PubDate` behaves like one with all keys absent since
every key defaults to the empty string). -/
structure PubDate where
  year : Option String
  month : Option String
  day : Option String
deriving DecidableEq, Repr

/-- The `Journal` sub-structure: optional `Title`, optional
`JournalIssue` carrying the publication date. -/
structure JournalXml where
  title : Option String
  journalIssue : Option PubDate
deriving DecidableEq, Repr

/-- The abstract: absent, a list of text segments (joined with single
spaces), or a scalar (coerced with `str`). -/
inductive AbstractField where
  | absent
  | texts (segments : List String)
  | scalar (text : String)
deriving DecidableEq, Repr

/-- The parsed `MedlineCitation.Article` record handed back by
`Entrez.read` for one identifier. -/
structure ArticleXml where
  articleTitle : Option String
  abstract : AbstractField
  journal : Option JournalXml
  authorList : Option (List AuthorXml)
  affiliation : Option (List String)
deriving DecidableEq, Repr

/-- Collecting one affiliation string (pubmed_fetcher.py lines 195-198
and 202-205): append it and or the classifier verdict into the flag. -/
def affStep (lex : Lexicon) (state : List String × Bool) (aff : String) :
    List String × Bool :=
  (state.1 ++ [aff], state.2 || has_pharma_affiliation lex (some aff))

/-- One `AffiliationInfo` entry (lines 193-198): skipped when the
`Affiliation` key is missing. -/
def affInfoStep (lex : Lexicon) (state : List String × Bool)
    (info : AffiliationInfo) : List String × Bool :=
  match info.affiliation with
  | some aff => affStep lex state aff
  | none => state

/-- One `AuthorList` entry (lines 186-198): the name is recorded only
when both name parts are present; then the `AffiliationInfo` entries
of the author are folded in. -/
def authorStep (lex : Lexicon) (acc : List String × List String × Bool)
    (author : AuthorXml) : List String × List String × Bool :=
  let authors :=
    match author.lastName, author.foreName with
    | some ln, some fn => acc.1 ++ [fn ++ " " ++ ln]
    | _, _ => acc.1
  let affState :=
    match author.affiliationInfo with
    | none => acc.2
    | some infos => infos.foldl (affInfoStep lex) acc.2
  (authors, affState)

/-- The success path of `PubMedFetcher.get_paper_details` (lines
150-228) applied to an already-parsed article: field extraction,
per-affiliation classification, truncation and record construction.
A transport/parse exception or an empty `Entrez.read` result is
modelled at the call site by a `none` detail outcome. -/
def get_paper_details (lex : Lexicon) (cfg : OutputConfig) (pmid : String)
    (paper : ArticleXml) : Paper :=
  let title :=
    match paper.articleTitle with
    | some t => t
    | none => ""
  let abstract :=
    match paper.abstract with
    | .absent => ""
    | .texts segments => pyJoin " " segments
    | .scalar text => text
  let journal :=
    match paper.journal with
    | none => ""
    | some j =>
      match j.title with
      | some t => t
      | none => ""
  let pub_date :=
    match paper.journal with
    | none => ""
    | some j =>
      match j.journalIssue with
      | none => ""
      | some pd =>
        pyStrip ((pd.year.getD "") ++ " " ++ (pd.month.getD "") ++ " " ++
          (pd.day.getD ""))
  let state1 :=
    match paper.authorList with
    | none => (([] : List String), ([] : List String), false)
    | some authors => authors.foldl (authorStep lex) ([], [], false)
  let state2 :=
    match paper.affiliation with
    | none => state1.2
    | some affs => affs.foldl (affStep lex) state1.2
  let abstract2 :=
    if cfg.truncate_long_fields then truncateField cfg.max_field_length abstract
    else abstract
  let title2 :=
    if cfg.truncate_long_fields then truncateField cfg.max_field_length title
    else title
  { pmid := pmid
    title := title2
    abstract := if cfg.include_abstract then abstract2 else ""
    journal := journal
    publication_date := pub_date
    authors := if state1.1.isEmpty then "" else pyJoin "; " state1.1
    affiliations :=
      if !state2.1.isEmpty && cfg.include_affiliations then pyJoin "; " state2.1
      else ""
    has_pharma_affiliation := state2.2 }

/-- The affiliation strings of one author, in collection order. -/
def authorAffiliations (author : AuthorXml) : List String :=
  match author.affiliationInfo with
  | none => []
  | some infos => infos.filterMap (fun info => info.affiliation)

/-- Every affiliation string `get_paper_details` extracts for one
record: per-author affiliations first, then the article-level ones. -/
def extractedAffiliations (paper : ArticleXml) : List String :=
  ((paper.authorList.getD []).flatMap authorAffiliations) ++
    (paper.affiliation.getD [])

/-- A concrete parsed article with one pharma author affiliation. -/
def demoArticle : ArticleXml :=
  { articleTitle := some "A trial"
    abstract := .texts ["part one", "part two"]
    journal := some
      { title := some "J"
        journalIssue := some { year := some "2020", month := some "Jan", day := none } }
    authorList := some
      [{ lastName := some "Smith", foreName := some "Ann",
         affiliationInfo := some [{ affiliation := some "Pfizer Inc, Groton CT" }] }]
    affiliation := some ["Dept of Physics"] }

/-- A concrete parsed article with no affiliations at all. -/
def emptyArticle : ArticleXml :=
  { articleTitle := none
    abstract := .absent
    journal := none
    authorList := none
    affiliation := none }

/-- Rendering of the boolean flag by `pandas.DataFrame.to_csv`. -/
def pyStr (b : Bool) : String := if b then "True" else "False"

/-- The ordered key/value dictionary a `Paper` holds: the insertion
order of `get_paper_details` (lines 215-224) followed by the two keys
`BatchProcessor.process_query` appends when the paper went through a
batch run. -/
def Paper.toDict (p : Paper) : List (String × String) :=
  [("pmid", p.pmid), ("title", p.title), ("abstract", p.abstract),
   ("journal", p.journal), ("publication_date", p.publication_date),
   ("authors", p.authors), ("affiliations", p.affiliations),
   ("has_pharma_affiliation", pyStr p.has_pharma_affiliation)] ++
  (match p.search_query with
   | some q => [("search_query", q)]
   | none => []) ++
  (match p.query_name with
   | some n => [("query_name", n)]
   | none => [])

/-- One step of the column-union construction of
`pandas.DataFrame(list_of_dicts)`: append the row keys not seen
before. -/
def dfColumnsStep (acc : List String) (row : List (String × String)) :
    List String :=
  acc ++ ((row.map Prod.fst).filter fun k => !(acc.contains k))

/-- The columns of `pandas.DataFrame(list_of_dicts)`: union of the row keys
in order of first appearance. -/
def dfColumns (rows : List (List (String × String))) : List String :=
  rows.foldl dfColumnsStep []

/-- A tabular file: header and one row of rendered cells per record.
A cell missing from a record is NaN in the frame and renders empty. -/
structure Csv where
  header : List String
  rows : List (List String)
deriving DecidableEq, Repr

/-- The column selection `df = df[available_columns]` followed by
`to_csv`: keep, of the preferred columns, those present in the frame,
in the preferred order. -/
def buildCsv (preferred : List String)
    (dicts : List (List (String × String))) : Csv :=
  let available := preferred.filter fun col => (dfColumns dicts).contains col
  { header := available
    rows := dicts.map fun row => available.map fun col => (row.lookup col).getD "" }

/-- The `csv.QUOTE_ALL` rendering of one cell: wrap in double quotes,
doubling embedded quotes. -/
def csv_quote (s : String) : String :=
  "\"" ++ ⟨s.data.flatMap fun ch => if ch = '"' then ['"', '"'] else [ch]⟩ ++ "\""

def csvRenderLine (fields : List String) : String :=
  pyJoin "," (fields.map csv_quote)

/-- The lines of the written file: quoted header, then quoted rows. -/
def csvRender (c : Csv) : List String :=
  csvRenderLine c.header :: c.rows.map csvRenderLine

/-- Preferred column order of `PubMedFetcher.export_to_csv` (lines
282-283). -/
def preferred_columns_single : List String :=
  ["pmid", "title", "authors", "journal", "publication_date",
   "affiliations", "abstract", "has_pharma_affiliation"]

/-- Preferred column order of `BatchProcessor.export_combined_results`
(lines 133-135). -/
def preferred_columns_batch : List String :=
  ["pmid", "title", "authors", "journal", "publication_date",
   "affiliations", "abstract", "search_query", "query_name",
   "has_pharma_affiliation", "processed_date"]

/-- The exporter `PubMedFetcher.export_to_csv` (lines 266-293); `none` means no file
is written. -/
def export_to_csv (papers : List Paper) : Option Csv :=
  if papers.isEmpty then none
  else some (buildCsv preferred_columns_single (papers.map Paper.toDict))

/-- The batch exporter `BatchProcessor.export_combined_results` (lines 114-148): the
timestamp column `processed_date` (value `now`) is added to every row
before reordering. -/
def export_combined_results (now : String) (papers : List Paper) : Option Csv :=
  if papers.isEmpty then none
  else
    some (buildCsv preferred_columns_batch
      ((papers.map Paper.toDict).map fun row => row ++ [("processed_date", now)]))

set_option maxRecDepth 40000

/-- Every phrase in the configured lexicon is already lowercase
(so matching against the lowercased affiliation is exactly
case-insensitive matching) and nonempty. -/
lemma defaultLexicon_keywords_lower_nonempty :
    ∀ kw ∈ defaultLexicon.all_keywords, pyLower kw = kw ∧ kw ≠ "" := by decide

lemma any_congr_of_mem {α : Type} (l : List α) (f g : α → Bool)
    (h : ∀ x ∈ l, f x = g x) : l.any f = l.any g := by
  induction l with
  | nil => rfl
  | cons a as ih =>
    simp only [List.any_cons]
    rw [h a (by simp), ih (fun x hx => h x (by simp [hx]))]

lemma pyContains_empty_hay (n : String) (hn : n ≠ "") : pyContains "" n = false := by
  have hd : n.data ≠ [] := by
    intro h
    apply hn
    cases n
    simp_all
  unfold pyContains
  simp only [show ("" : String).data = [] from rfl]
  simp [List.isPrefixOf_iff_prefix, hd]

/-- The classifier, on a lexicon whose phrases are lowercase and
nonempty, agrees with "some phrase of the union matches
case-insensitively as a substring". -/
lemma has_pharma_affiliation_eq_any (lex : Lexicon)
    (hkw : ∀ kw ∈ lex.all_keywords, pyLower kw = kw ∧ kw ≠ "") (a : String) :
    has_pharma_affiliation lex (some a) =
      lex.all_keywords.any (fun kw => pyContains (pyLower a) (pyLower kw)) := by
  have hrw : lex.all_keywords.any (fun kw => pyContains (pyLower a) (pyLower kw)) =
      lex.all_keywords.any (fun kw => pyContains (pyLower a) kw) :=
    any_congr_of_mem _ _ _ (fun kw hk => by rw [(hkw kw hk).1])
  rw [hrw]
  by_cases ha : a = ""
  · subst ha
    have hl : has_pharma_affiliation lex (some "") = false := by
      simp [has_pharma_affiliation]
    rw [hl]
    symm
    rw [List.any_eq_false]
    intro kw hk
    have hpl : pyLower "" = "" := rfl
    rw [hpl, pyContains_empty_hay kw (hkw kw hk).2]
    simp
  · simp only [has_pharma_affiliation, if_neg ha, Lexicon.all_keywords, List.any_append]
    ac_rfl

/-- C1: the classifier returns true iff some phrase of one of the four
lexicon categories occurs as a case-insensitive substring of the
affiliation, and returns false on `None` and on the empty string. -/
theorem C1_classifier_matches_lexicon_substring :
    (∀ s : String, has_pharma_affiliation defaultLexicon (some s) =
        defaultLexicon.all_keywords.any
          (fun kw => pyContains (pyLower s) (pyLower kw)))
    ∧ has_pharma_affiliation defaultLexicon none = false
    ∧ has_pharma_affiliation defaultLexicon (some "") = false :=
  ⟨fun s => has_pharma_affiliation_eq_any defaultLexicon
      defaultLexicon_keywords_lower_nonempty s,
   rfl, by simp [has_pharma_affiliation]⟩

lemma mem_filterLoop_flag (details : String → Option Paper) :
    ∀ pmids, ∀ p ∈ filterLoop details pmids, p.has_pharma_affiliation = true := by
  intro pmids
  induction pmids with
  | nil => intro p hp; cases hp
  | cons x rest ih =>
    intro p hp
    cases hx : details x with
    | none => simp only [filterLoop, hx] at hp; exact ih p hp
    | some q =>
      simp only [filterLoop, hx] at hp
      by_cases hq : q.has_pharma_affiliation
      · rw [if_pos hq] at hp
        rcases List.mem_cons.mp hp with h | h
        · rw [h]; exact hq
        · exact ih p h
      · rw [if_neg hq] at hp
        exact ih p hp

lemma mem_fetch_and_filter_flag (raw : Except String (List String))
    (details : String → Option Paper) :
    ∀ p ∈ fetch_and_filter_papers raw details, p.has_pharma_affiliation = true := by
  intro p hp
  unfold fetch_and_filter_papers at hp
  by_cases h : (search_pubmed raw).isEmpty
  · simp only [h, if_pos] at hp; cases hp
  · simp only [h, if_neg, Bool.false_eq_true, not_false_eq_true] at hp
    exact mem_filterLoop_flag details _ p hp

lemma mem_batchLoop (pipeline : String → List Paper) :
    ∀ (queries : List String) (k : Nat), ∀ p ∈ batchLoop pipeline k queries,
      ∃ q name, p ∈ process_query pipeline q name := by
  intro queries
  induction queries with
  | nil => intro k p hp; cases hp
  | cons x rest ih =>
    intro k p hp
    rcases List.mem_append.mp hp with h | h
    · exact ⟨x, some ("Query_" ++ toString k), h⟩
    · exact ih (k + 1) p h

lemma mem_process_query_flag (pipeline : String → List Paper)
    (hpl : ∀ q, ∀ p ∈ pipeline q, p.has_pharma_affiliation = true)
    (query : String) (name : Option String) :
    ∀ p ∈ process_query pipeline query name, p.has_pharma_affiliation = true := by
  intro p hp
  rcases List.mem_map.mp hp with ⟨r, hr, hrp⟩
  rw [← hrp]
  exact hpl query r hr

/-- C2: every record in a `fetch_and_filter_papers` result set has its
affiliation flag true, and so does every record a batch run built on the
same pipeline hands to the exporter. -/
theorem C2_only_flagged_records_retained
    (details : String → Option Paper) :
    (∀ raw, ∀ p ∈ fetch_and_filter_papers raw details,
        p.has_pharma_affiliation = true)
    ∧ ∀ (rawOf : String → Except String (List String)) (queries : List String),
        ∀ p ∈ process_queries_from_list
            (fun q => fetch_and_filter_papers (rawOf q) details) queries,
          p.has_pharma_affiliation = true := by
  refine ⟨fun raw => mem_fetch_and_filter_flag raw details, ?_⟩
  intro rawOf queries p hp
  rcases mem_batchLoop _ queries 1 p hp with ⟨q, name, hq⟩
  exact mem_process_query_flag _
    (fun q' => mem_fetch_and_filter_flag (rawOf q') details) q name p hq

/-- Witness for C2 on closed inputs. -/
theorem C2_witness :
    demoPaper ∈ fetch_and_filter_papers (Except.ok ["100"]) demoDetails ∧
      demoPaper.has_pharma_affiliation = true :=
  ⟨by decide,
   (C2_only_flagged_records_retained demoDetails).1 (Except.ok ["100"])
     demoPaper (by decide)⟩

/-- C7: a failed search call yields an empty identifier list instead of
propagating, and an empty identifier list makes the pipeline return an
empty result at once — the result does not depend on the detail oracle,
i.e. no detail retrieval is performed. -/
theorem C7_search_failure_yields_empty_run :
    (∀ msg, search_pubmed (Except.error msg) = [])
    ∧ (∀ msg details, fetch_and_filter_papers (Except.error msg) details = [])
    ∧ ∀ raw d1 d2, search_pubmed raw = [] →
        fetch_and_filter_papers raw d1 = [] ∧
          fetch_and_filter_papers raw d1 = fetch_and_filter_papers raw d2 := by
  refine ⟨fun msg => rfl, fun msg details => rfl, ?_⟩
  intro raw d1 d2 h
  unfold fetch_and_filter_papers
  rw [h]
  exact ⟨rfl, rfl⟩

/-- Witness for C7 on closed inputs. -/
theorem C7_witness :
    search_pubmed (Except.ok []) = [] ∧
      fetch_and_filter_papers (Except.ok []) demoDetails = [] ∧
        fetch_and_filter_papers (Except.ok []) demoDetails =
          fetch_and_filter_papers (Except.ok []) (fun _pmid => none) := by
  have h := C7_search_failure_yields_empty_run.2.2 (Except.ok []) demoDetails
    (fun _pmid => none) (by decide)
  exact ⟨by decide, h.1, h.2⟩

lemma filterLoop_append (details : String → Option Paper) (l1 l2 : List String) :
    filterLoop details (l1 ++ l2) =
      filterLoop details l1 ++ filterLoop details l2 := by
  induction l1 with
  | nil => rfl
  | cons x xs ih =>
    simp only [List.cons_append, filterLoop]
    cases hx : details x with
    | none => exact ih
    | some p =>
      by_cases hp : p.has_pharma_affiliation <;> simp [hp, ih]

/-- C4: a failing detail retrieval for one of three identifiers only
loses that identifier — the run still produces exactly the filtered
records of the other two, and the pipeline is a total function (the
per-identifier exception is caught inside `get_paper_details`, which
hands back `None`). -/
theorem C4_detail_failure_skips_only_that_identifier (a b c : String)
    (details : String → Option Paper) (hb : details b = none) :
    fetch_and_filter_papers (Except.ok [a, b, c]) details =
      fetch_and_filter_papers (Except.ok [a, c]) details := by
  have hb' : filterLoop details [b] = [] := by simp [filterLoop, hb]
  have e1 : fetch_and_filter_papers (Except.ok [a, b, c]) details =
      filterLoop details ([a] ++ [b] ++ [c]) := rfl
  have e2 : fetch_and_filter_papers (Except.ok [a, c]) details =
      filterLoop details ([a] ++ [c]) := rfl
  rw [e1, e2, filterLoop_append, filterLoop_append, filterLoop_append, hb']
  simp

/-- Witness for C4 on closed inputs. -/
theorem C4_witness :
    demoDetails "200" = none ∧
      fetch_and_filter_papers (Except.ok ["100", "200", "300"]) demoDetails =
        fetch_and_filter_papers (Except.ok ["100", "300"]) demoDetails :=
  ⟨by decide,
   C4_detail_failure_skips_only_that_identifier "100" "200" "300" demoDetails
     (by decide)⟩

/-- C6: with truncation enabled, a field longer than the configured
maximum is cut to exactly that many characters and the `"..."` marker is
appended; a field at or under the limit is unchanged. -/
theorem C6_truncation (max_length : Nat) (s : String) :
    (pyLen s > max_length →
        truncateField max_length s = pySlice s max_length ++ "..." ∧
          pyLen (pySlice s max_length) = max_length ∧
            pyLen (truncateField max_length s) = max_length + 3)
    ∧ (pyLen s ≤ max_length → truncateField max_length s = s) := by
  constructor
  · intro h
    have ht : truncateField max_length s = pySlice s max_length ++ "..." := by
      unfold truncateField
      rw [if_pos h]
    have hsl : pyLen (pySlice s max_length) = max_length := by
      unfold pyLen pySlice
      simp only
      rw [List.length_take]
      exact Nat.min_eq_left (Nat.le_of_lt h)
    refine ⟨ht, hsl, ?_⟩
    rw [ht]
    unfold pyLen
    rw [String.data_append, List.length_append]
    have : (("..." : String).data).length = 3 := rfl
    rw [this]
    unfold pyLen at hsl
    omega
  · intro h
    unfold truncateField
    rw [if_neg (by omega)]

/-- Witness for C6 on closed inputs. -/
theorem C6_witness :
    pyLen "abcdef" > 3 ∧
      (truncateField 3 "abcdef" = pySlice "abcdef" 3 ++ "..." ∧
        pyLen (pySlice "abcdef" 3) = 3 ∧
          pyLen (truncateField 3 "abcdef") = 3 + 3) ∧
      pyLen "ab" ≤ 3 ∧ truncateField 3 "ab" = "ab" :=
  ⟨by decide, (C6_truncation 3 "abcdef").1 (by decide),
   by decide, (C6_truncation 3 "ab").2 (by decide)⟩

/-- C3 counterexample: a comment line indented by whitespace.  The code
tests `line.startswith('#')` on the unstripped line, so `"  # note"` is
kept (as `"# note"`), while the claim requires dropping every line whose
first non-whitespace character is '#'. -/
theorem C3_counterexample :
    process_queries_file_lines ["  # note", "query one"] = ["# note", "query one"]
    ∧ load_queries_spec ["  # note", "query one"] = ["query one"]
    ∧ process_queries_file_lines ["  # note", "query one"] ≠
        load_queries_spec ["  # note", "query one"] :=
  ⟨by decide, by decide, by decide⟩

/-- C3 (amended): loading a query file yields exactly the lines that are
non-blank after stripping and do not start (before stripping) with the
character '#', each stripped, in original order. -/
theorem C3_amended_file_loading (lines : List String) :
    process_queries_file_lines lines = load_queries_amended lines := by
  induction lines with
  | nil => rfl
  | cons line rest ih =>
    simp only [process_queries_file_lines, load_queries_amended] at *
    by_cases h1 : pyStrip line = ""
    · simp [h1, ih]
    · by_cases h2 : pyStartsWith line "#"
      · simp [h1, h2, ih]
      · simp [h1, h2, ih]

lemma query_label_ne_empty (x : String) : ("Query_" ++ x) ≠ "" := by
  intro h
  have hd := congrArg String.data h
  rw [String.data_append] at hd
  simp at hd

lemma if_query_label {α : Type} (x : String) (a b : α) :
    (if ("Query_" ++ x) = "" then a else b) = b :=
  if_neg (query_label_ne_empty x)

lemma flatMap_congr_of_mem {α β : Type} (l : List α) (f g : α → List β)
    (h : ∀ x ∈ l, f x = g x) : l.flatMap f = l.flatMap g := by
  induction l with
  | nil => rfl
  | cons a as ih =>
    simp only [List.flatMap_cons]
    rw [h a (by simp), ih (fun x hx => h x (by simp [hx]))]

lemma batchLoop_eq_range (pipeline : String → List Paper) :
    ∀ (queries : List String) (k : Nat),
      batchLoop pipeline k queries =
        (List.range queries.length).flatMap fun i =>
          (pipeline (queries.getD i "")).map fun paper =>
            { paper with
                search_query := some (queries.getD i "")
                query_name := some ("Query_" ++ toString (k + i)) } := by
  intro queries
  induction queries with
  | nil => intro k; rfl
  | cons q rest ih =>
    intro k
    simp only [batchLoop, List.length_cons, List.range_succ_eq_map,
      List.flatMap_cons, List.flatMap_map]
    congr 1
    rw [ih (k + 1)]
    apply flatMap_congr_of_mem
    intro i _
    simp only [Nat.succ_eq_add_one, List.getD_cons_succ]
    have hki : k + (i + 1) = k + 1 + i := by omega
    rw [hki]

/-- C5: batch processing over the queries of a list, with no
caller-supplied labels, runs the pipeline on each query in input order
under the auto-generated 1-based label `Query_<i>`, tags every resulting
record with the raw query string and the label, and concatenates the
per-query results in input order — so labels track input positions even
when some queries contribute zero records. -/
theorem C5_batch_order_and_labels (pipeline : String → List Paper)
    (queries : List String) :
    process_queries_from_list pipeline queries =
      (List.range queries.length).flatMap fun i =>
        (pipeline (queries.getD i "")).map fun paper =>
          { paper with
              search_query := some (queries.getD i "")
              query_name := some ("Query_" ++ toString (i + 1)) } := by
  have h := batchLoop_eq_range pipeline queries 1
  have hadd : ∀ i : Nat, 1 + i = i + 1 := by omega
  simp only [hadd] at h
  exact h

lemma affStep_foldl (lex : Lexicon) (affs : List String) :
    ∀ (a : List String) (f : Bool),
      affs.foldl (affStep lex) (a, f) =
        (a ++ affs,
         f || affs.any fun aff => has_pharma_affiliation lex (some aff)) := by
  induction affs with
  | nil => intro a f; simp
  | cons x xs ih =>
    intro a f
    simp only [List.foldl_cons, affStep, List.any_cons]
    rw [ih]
    simp [Bool.or_assoc]

lemma affInfoStep_foldl (lex : Lexicon) (infos : List AffiliationInfo) :
    ∀ (a : List String) (f : Bool),
      infos.foldl (affInfoStep lex) (a, f) =
        (a ++ infos.filterMap (fun info => info.affiliation),
         f || (infos.filterMap (fun info => info.affiliation)).any
            fun aff => has_pharma_affiliation lex (some aff)) := by
  induction infos with
  | nil => intro a f; simp
  | cons i is ih =>
    intro a f
    cases hi : i.affiliation with
    | none =>
      simp only [List.foldl_cons, affInfoStep, hi, List.filterMap_cons]
      exact ih a f
    | some aff =>
      simp only [List.foldl_cons, affInfoStep, hi, List.filterMap_cons, affStep]
      rw [ih]
      simp [Bool.or_assoc]

lemma authorStep_foldl_snd (lex : Lexicon) (authors : List AuthorXml) :
    ∀ (names a : List String) (f : Bool),
      (authors.foldl (authorStep lex) (names, a, f)).2 =
        (a ++ authors.flatMap authorAffiliations,
         f || (authors.flatMap authorAffiliations).any
            fun aff => has_pharma_affiliation lex (some aff)) := by
  induction authors with
  | nil => intro names a f; simp
  | cons au rest ih =>
    intro names a f
    simp only [List.foldl_cons, List.flatMap_cons]
    cases hai : au.affiliationInfo with
    | none =>
      have h1 : authorStep lex (names, a, f) au =
          ((match au.lastName, au.foreName with
            | some ln, some fn => names ++ [fn ++ " " ++ ln]
            | _, _ => names), a, f) := by
        simp [authorStep, hai]
      rw [h1, ih]
      simp [authorAffiliations, hai]
    | some infos =>
      have h1 : authorStep lex (names, a, f) au =
          ((match au.lastName, au.foreName with
            | some ln, some fn => names ++ [fn ++ " " ++ ln]
            | _, _ => names),
           a ++ authorAffiliations au,
           f || (authorAffiliations au).any
              fun aff => has_pharma_affiliation lex (some aff)) := by
        simp [authorStep, hai, affInfoStep_foldl, authorAffiliations]
      rw [h1, ih]
      simp [authorAffiliations, hai, List.any_append, Bool.or_assoc]

/-- C10: the stored `has_pharma_affiliation` flag equals the disjunction
of the classifier over every affiliation string extracted for the record
(per-author affiliations, then article-level ones), and a record with no
extracted affiliations has flag false. -/
theorem C10_flag_is_classifier_disjunction (lex : Lexicon)
    (cfg : OutputConfig) (pmid : String) (paper : ArticleXml) :
    (get_paper_details lex cfg pmid paper).has_pharma_affiliation =
      ((extractedAffiliations paper).any
        fun aff => has_pharma_affiliation lex (some aff))
    ∧ (extractedAffiliations paper = [] →
        (get_paper_details lex cfg pmid paper).has_pharma_affiliation = false) := by
  have hmain : (get_paper_details lex cfg pmid paper).has_pharma_affiliation =
      (extractedAffiliations paper).any
        fun aff => has_pharma_affiliation lex (some aff) := by
    simp only [get_paper_details, extractedAffiliations]
    cases hA : paper.authorList with
    | none =>
      cases hF : paper.affiliation with
      | none => simp [hA, hF]
      | some affs => simp [hA, hF, affStep_foldl]
    | some authors =>
      cases hF : paper.affiliation with
      | none => simp [hA, hF, authorStep_foldl_snd]
      | some affs =>
        simp [hA, hF, authorStep_foldl_snd, affStep_foldl,
          List.any_append, Bool.or_assoc]
  refine ⟨hmain, fun h => ?_⟩
  rw [hmain, h]
  rfl

/-- Witness for C10 on closed inputs. -/
theorem C10_witness :
    ((get_paper_details defaultLexicon OUTPUT_CONFIG "1" demoArticle).has_pharma_affiliation =
      ((extractedAffiliations demoArticle).any
        fun aff => has_pharma_affiliation defaultLexicon (some aff)))
    ∧ extractedAffiliations emptyArticle = []
    ∧ (get_paper_details defaultLexicon OUTPUT_CONFIG "1" emptyArticle).has_pharma_affiliation = false :=
  ⟨(C10_flag_is_classifier_disjunction defaultLexicon OUTPUT_CONFIG "1" demoArticle).1,
   by decide,
   (C10_flag_is_classifier_disjunction defaultLexicon OUTPUT_CONFIG "1" emptyArticle).2
     (by decide)⟩

/-- C8: exporting an empty record list writes nothing, in both the
single-query and the batch export path. -/
theorem C8_empty_export_writes_nothing :
    export_to_csv [] = none ∧ ∀ now, export_combined_results now [] = none :=
  ⟨rfl, fun _now => rfl⟩

lemma mem_dfColumns_foldl (k : String) :
    ∀ (rows : List (List (String × String))) (acc : List String),
      (k ∈ rows.foldl dfColumnsStep acc ↔
        k ∈ acc ∨ ∃ row ∈ rows, k ∈ row.map Prod.fst) := by
  intro rows
  induction rows with
  | nil => intro acc; simp
  | cons row rest ih =>
    intro acc
    rw [List.foldl_cons, ih]
    constructor
    · rintro (h | h)
      · rcases List.mem_append.mp h with h' | h'
        · exact Or.inl h'
        · exact Or.inr ⟨row, by simp, (List.mem_filter.mp h').1⟩
      · rcases h with ⟨r, hr, hk⟩
        exact Or.inr ⟨r, by simp [hr], hk⟩
    · rintro (h | ⟨r, hr, hk⟩)
      · exact Or.inl (List.mem_append.mpr (Or.inl h))
      · rcases List.mem_cons.mp hr with rfl | hr'
        · by_cases hacc : k ∈ acc
          · exact Or.inl (List.mem_append.mpr (Or.inl hacc))
          · refine Or.inl (List.mem_append.mpr (Or.inr ?_))
            refine List.mem_filter.mpr ⟨hk, ?_⟩
            simp [List.elem_iff, hacc]
        · exact Or.inr ⟨r, hr', hk⟩

lemma mem_dfColumns (rows : List (List (String × String))) (k : String) :
    k ∈ dfColumns rows ↔ ∃ row ∈ rows, k ∈ row.map Prod.fst := by
  have h := mem_dfColumns_foldl k rows []
  simpa using h

lemma buildCsv_header (preferred : List String)
    (dicts : List (List (String × String))) :
    (buildCsv preferred dicts).header =
      preferred.filter fun col =>
        dicts.any fun row => (row.map Prod.fst).contains col := by
  unfold buildCsv
  apply List.filter_congr
  intro col _
  rw [Bool.eq_iff_iff]
  simp [List.elem_iff, mem_dfColumns, List.any_eq_true]

lemma buildCsv_rows (preferred : List String)
    (dicts : List (List (String × String))) :
    (buildCsv preferred dicts).rows =
      dicts.map fun row =>
        (buildCsv preferred dicts).header.map fun col =>
          (row.lookup col).getD "" := rfl

/-- C9: for a non-empty record list both exporters emit the fixed
preferred column order restricted to exactly the attributes present on
the records (including, batch-only, the query string, query label and
processing timestamp), each row being the record values under that
header, and render every field of every line quoted. -/
theorem C9_export_columns_and_quoting (papers : List Paper) (now : String)
    (hne : papers ≠ []) :
    (∃ c, export_to_csv papers = some c
      ∧ c.header = preferred_columns_single.filter
          (fun col => papers.any fun p => (p.toDict.map Prod.fst).contains col)
      ∧ c.rows = papers.map
          (fun p => c.header.map fun col => (p.toDict.lookup col).getD "")
      ∧ ∀ line ∈ csvRender c, ∃ fields : List String, line = pyJoin "," (fields.map csv_quote))
    ∧ ∃ c, export_combined_results now papers = some c
      ∧ c.header = preferred_columns_batch.filter
          (fun col => papers.any fun p =>
            ((p.toDict ++ [("processed_date", now)]).map Prod.fst).contains col)
      ∧ c.rows = papers.map
          (fun p => c.header.map fun col =>
            ((p.toDict ++ [("processed_date", now)]).lookup col).getD "")
      ∧ ∀ line ∈ csvRender c, ∃ fields : List String, line = pyJoin "," (fields.map csv_quote) := by
  have hquote : ∀ c : Csv, ∀ line ∈ csvRender c,
      ∃ fields : List String, line = pyJoin "," (fields.map csv_quote) := by
    intro c line hline
    rcases List.mem_cons.mp hline with h | h
    · exact ⟨c.header, h⟩
    · rcases List.mem_map.mp h with ⟨row, _hrow, hrl⟩
      exact ⟨row, hrl.symm⟩
  rcases papers with _ | ⟨p0, rest⟩
  · exact absurd rfl hne
  constructor
  · refine ⟨_, rfl, ?_, ?_, hquote _⟩
    · rw [buildCsv_header]
      apply List.filter_congr
      intro col _
      rw [Bool.eq_iff_iff]
      simp only [List.any_eq_true, List.mem_map, List.elem_iff]
      constructor
      · rintro ⟨row, ⟨p, hp, rfl⟩, hcol⟩
        exact ⟨p, hp, hcol⟩
      · rintro ⟨p, hp, hcol⟩
        exact ⟨Paper.toDict p, ⟨p, hp, rfl⟩, hcol⟩
    · rw [buildCsv_rows, List.map_map]
      rfl
  · refine ⟨_, rfl, ?_, ?_, hquote _⟩
    · rw [buildCsv_header]
      apply List.filter_congr
      intro col _
      rw [Bool.eq_iff_iff]
      simp only [List.any_eq_true, List.mem_map, List.elem_iff, Function.comp]
      constructor
      · rintro ⟨x, ⟨a, ⟨p, hp, rfl⟩, rfl⟩, ha⟩
        exact ⟨p, hp, ha⟩
      · rintro ⟨p, hp, ha⟩
        exact ⟨p.toDict ++ [("processed_date", now)], ⟨p.toDict, ⟨p, hp, rfl⟩, rfl⟩, ha⟩
    · rw [buildCsv_rows, List.map_map, List.map_map]
      rfl

/-- Witness for C9 on closed inputs. -/
theorem C9_witness :
    ([demoPaper] ≠ []) ∧
    ((∃ c, export_to_csv [demoPaper] = some c
      ∧ c.header = preferred_columns_single.filter
          (fun col => [demoPaper].any fun p => (p.toDict.map Prod.fst).contains col)
      ∧ c.rows = [demoPaper].map
          (fun p => c.header.map fun col => (p.toDict.lookup col).getD "")
      ∧ ∀ line ∈ csvRender c, ∃ fields : List String, line = pyJoin "," (fields.map csv_quote))
    ∧ ∃ c, export_combined_results "2024-01-01 00:00:00" [demoPaper] = some c
      ∧ c.header = preferred_columns_batch.filter
          (fun col => [demoPaper].any fun p =>
            ((p.toDict ++ [("processed_date", "2024-01-01 00:00:00")]).map Prod.fst).contains col)
      ∧ c.rows = [demoPaper].map
          (fun p => c.header.map fun col =>
            ((p.toDict ++ [("processed_date", "2024-01-01 00:00:00")]).lookup col).getD "")
      ∧ ∀ line ∈ csvRender c, ∃ fields : List String, line = pyJoin "," (fields.map csv_quote)) :=
  ⟨by simp,
   C9_export_columns_and_quoting [demoPaper] "2024-01-01 00:00:00" (by simp)⟩

end PubMed
